import Mathlib

/-!
Verification of the semantic Graph-RAG pipeline (`semantic_graph_rag.py`).

A shallow embedding of the core pipeline of the repository:

* `SemanticEntityExtractor.extract_entities_from_chunk`  — structured entity
  extraction with markdown-fence stripping, JSON parsing and a best-effort
  empty fallback;
* `SemanticGraphRAG.ingest_documents_semantically` — chunk-by-chunk graph
  ingestion against a Neo4j-style labelled property graph (CREATE / MERGE /
  MATCH semantics embedded explicitly);
* `SemanticGraphRAG.query_with_chain_of_thought` — retrieval plus
  chain-of-thought answer synthesis.

External collaborators (the Azure OpenAI completion service, the JSON
decoder `json.loads`, and the retriever) are modelled as function
parameters; every Python string operation used by the code
(`str.strip`, `str.startswith`, `str.split`) is embedded explicitly on
`List Char` so that its behaviour can be reasoned about.
Graph-store write failures are modelled by an oracle (`failSet`) naming the
`session.run` invocations (counted from 0) that raise.
-/

namespace SemanticGraphRAG

/-! ## Python string primitives -/

/-- Python `str.strip()`: remove whitespace from both ends. -/
def pyStripCh (s : List Char) : List Char :=
  ((s.dropWhile Char.isWhitespace).reverse.dropWhile Char.isWhitespace).reverse

/-- Python `str.split(sep)` for a non-empty separator, with explicit fuel
(the fuel is consumed at least once per produced character, so
`s.length` fuel is always enough; see `pySplitAux_fuel_irrelevant`). -/
def pySplitAux (sep : List Char) : Nat → List Char → List (List Char)
  | _, [] => [[]]
  | 0, s => [s]
  | fuel + 1, c :: rest =>
    if sep.isPrefixOf (c :: rest) then
      [] :: pySplitAux sep fuel ((c :: rest).drop sep.length)
    else
      match pySplitAux sep fuel rest with
      | [] => [[c]]
      | p :: ps => (c :: p) :: ps

/-- Python `str.split(sep)` (non-empty `sep`): the list of fragments
between successive non-overlapping occurrences of `sep`, left to right. -/
def pySplit (sep s : List Char) : List (List Char) :=
  pySplitAux sep s.length s

/-- Python `str.upper()` on one character (the entity-type strings that the
code uppercases are ASCII, so the ASCII case suffices). -/
def pyUpperChar (c : Char) : Char :=
  if 'a' ≤ c ∧ c ≤ 'z' then Char.ofNat (c.toNat - 32) else c

/-- Python `str.upper()` (ASCII). -/
def pyUpper (s : String) : String := String.mk (s.toList.map pyUpperChar)

/-! ## Data model of the extractor -/

/-- One element of the `"entities"` array of the extraction reply:
a Python dict with mandatory `'type'`/`'name'` keys (the ingestion code
indexes them directly) and an optional `'description'` key
(read with `entity.get('description', '')`). -/
structure EntityDict where
  type : String
  name : String
  description : Option String
  deriving DecidableEq

/-- One element of the `"relationships"` array of the extraction reply:
a Python dict with mandatory `'from'`/`'to'`/`'type'` keys. -/
structure RelDict where
  from_ : String
  to_ : String
  type : String
  deriving DecidableEq

/-- The result of `json.loads` on an extraction reply, restricted to the
shape the code consumes: a JSON object whose three top-level fields
`entities`, `relationships` and `chunk_summary` may each be absent
(`extracted_data.get(...)` supplies the default). -/
structure PyJson where
  entities : Option (List EntityDict)
  relationships : Option (List RelDict)
  chunk_summary : Option String
  deriving DecidableEq

/-- The `EntityExtractionResult` dataclass: structured result from semantic entity
extraction (the `@dataclass` of the source). -/
structure EntityExtractionResult where
  entities : List EntityDict
  relationships : List RelDict
  chunk_summary : String
  deriving DecidableEq

/-- One `response.choices[i].message`; `content` is `None` or a string. -/
structure ChatMessage where
  content : Option String
  deriving DecidableEq

/-- One element of `response.choices`. -/
structure Choice where
  message : ChatMessage
  deriving DecidableEq

/-- A chat-completion response: its list of choices. -/
structure Completion where
  choices : List Choice
  deriving DecidableEq

/-! ## The extractor -/

/-- The fixed extraction instruction template
(`extraction_prompt` in `extract_entities_from_chunk`); the chunk text is
interpolated between the fixed header and footer. -/
def extraction_prompt (text_chunk : String) : String :=
  "You are an expert in SAP HANA on VMware systems. Extract structured information from this technical documentation chunk.\n\nSCHEMA DEFINITION:\nEntity Types:\n- Concept: High-level technical ideas (e.g., \"NUMA Optimization\", \"Memory Management\")\n- Parameter: Specific config settings (e.g., \"sched.cpu.affinity\", \"numa.nodeAffinity\") \n- Component: Software/hardware pieces (e.g., \"vSphere\", \"SAP HANA\", \"Guest OS\")\n- Recommendation: Best practice rules or guidelines\n\nRelationship Types:\n- INVOLVES_COMPONENT: Concept involves component\n- SETS_PARAMETER: Recommendation sets parameter\n- AFFECTS: Parameter affects component\n- FOR_CONCEPT: Recommendation for concept\n\nTEXT CHUNK:\n"
  ++ text_chunk ++
  "\n\nExtract entities and relationships. Output MUST be valid JSON:\n\n\x7b\n  \"entities\": [\n    \x7b\"type\": \"Concept\", \"name\": \"NUMA Optimization\", \"description\": \"brief description\"\x7d,\n    \x7b\"type\": \"Parameter\", \"name\": \"numa.nodeAffinity\", \"description\": \"controls NUMA node assignment\"\x7d\n  ],\n  \"relationships\": [\n    \x7b\"from\": \"NUMA Optimization\", \"to\": \"vSphere\", \"type\": \"INVOLVES_COMPONENT\"\x7d,\n    \x7b\"from\": \"Configure NUMA settings\", \"to\": \"numa.nodeAffinity\", \"type\": \"SETS_PARAMETER\"\x7d\n  ],\n  \"chunk_summary\": \"Brief summary of what this chunk discusses\"\n\x7d\n\nFocus on SAP HANA performance, VMware configuration, and system optimization concepts."

/-- The opening fence marker tested by `json_str.startswith('```json')`. -/
def fenceJson : List Char := "```json".toList

/-- The plain fence marker used by the second split, `.split('```')`. -/
def fenceTicks : List Char := "```".toList

/-- Lines 120–123 of the source:
`json_str = response...content.strip()` followed by
`if json_str.startswith('```json'): json_str = json_str.split('```json')[1].split('```')[0]`. -/
def preprocessReply (content : String) : String :=
  let json_str := pyStripCh content.toList
  let json_str :=
    if fenceJson.isPrefixOf json_str then
      (pySplit fenceTicks ((pySplit fenceJson json_str).getD 1 [])).getD 0 []
    else json_str
  String.mk json_str

/-- Lines 126–130 of the source: build the result with
`extracted_data.get("entities", [])` etc. -/
def applyFieldDefaults (j : PyJson) : EntityExtractionResult :=
  { entities := j.entities.getD []
    relationships := j.relationships.getD []
    chunk_summary := j.chunk_summary.getD "" }

/-- Line 135 of the source: the fallback value
`EntityExtractionResult(entities=[], relationships=[], chunk_summary="")`. -/
def emptyResult : EntityExtractionResult :=
  { entities := [], relationships := [], chunk_summary := "" }

/-- Method `SemanticEntityExtractor.extract_entities_from_chunk`.
`svc` is the completion service (`self.client.chat.completions.create`
applied to the single-message prompt; `.error` models a raised exception);
`parse` is `json.loads` restricted to the reply shape (`none` models a
`json.JSONDecodeError` or a non-object reply).  Every failure inside the
`try` block — service error, `choices[0]` IndexError, `content` being
`None`, parse failure — lands in the `except` branch, which returns
`emptyResult` instead of raising. -/
def extract_entities_from_chunk (svc : String → Except String Completion)
    (parse : String → Option PyJson) (text_chunk : String) :
    EntityExtractionResult :=
  match svc (extraction_prompt text_chunk) with
  | .error _ => emptyResult
  | .ok resp =>
    match resp.choices.head? with
    | none => emptyResult
    | some choice =>
      match choice.message.content with
      | none => emptyResult
      | some content =>
        match parse (preprocessReply content) with
        | none => emptyResult
        | some extracted_data => applyFieldDefaults extracted_data

/-! ## The labelled property graph (Neo4j model)

Nodes carry one label and string properties; edges are directed and carry a
type label.  `CREATE` always adds a node; `MERGE` on a node pattern matches
or creates; `MERGE` on a relationship between two bound nodes is idempotent
per (source, label, target); `MATCH ... MATCH ...` produces the cartesian
product of the two match sets as rows. -/

/-- A graph node: internal identifier, label, and string properties. -/
structure Node where
  nid : Nat
  label : String
  props : List (String × String)
  deriving DecidableEq

/-- A directed labelled edge between two node identifiers. -/
structure Edge where
  src : Nat
  lbl : String
  tgt : Nat
  deriving DecidableEq

/-- The graph-store state, with a fresh-identifier counter. -/
structure Graph where
  nodes : List Node
  edges : List Edge
  nextId : Nat
  deriving DecidableEq

/-- The empty graph (the store right after `MATCH (n) DETACH DELETE n`). -/
def emptyGraph : Graph := { nodes := [], edges := [], nextId := 0 }

/-- Look a key up in a property list (`none` when the key is absent). -/
def propLookup (ps : List (String × String)) (k : String) : Option String :=
  (ps.find? (fun p => p.1 == k)).map (fun p => p.2)

/-- Read a property of a node (`none` when the property is absent). -/
def getProp (n : Node) (k : String) : Option String :=
  propLookup n.props k

/-- Cypher `SET n.k = v`: overwrite the property if present, else add it. -/
def setProp (k v : String) (ps : List (String × String)) :
    List (String × String) :=
  if ps.any (fun p => p.1 == k) then
    ps.map (fun p => if p.1 == k then (k, v) else p)
  else ps ++ [(k, v)]

/-- Does a node match a Cypher node pattern `(n:lbl {req})`?
(`none` label = unlabelled pattern, as in the relationship query). -/
def nodeMatches (lbl : Option String) (req : List (String × String))
    (n : Node) : Bool :=
  (match lbl with
   | none => true
   | some l => n.label == l)
  && req.all (fun kv => getProp n kv.1 == some kv.2)

/-- Cypher `MATCH (n:lbl {req})`: all nodes matching the pattern. -/
def matchNodes (lbl : Option String) (req : List (String × String))
    (g : Graph) : List Node :=
  g.nodes.filter (nodeMatches lbl req)

/-- Cypher `CREATE (n:lbl {props})`: unconditionally add a fresh node. -/
def createNode (lbl : String) (props : List (String × String))
    (g : Graph) : Graph :=
  { nodes := g.nodes ++ [{ nid := g.nextId, label := lbl, props := props }]
    edges := g.edges
    nextId := g.nextId + 1 }

/-- Lines 200–206 of the source, one entity:
`MERGE (e:<type> {name: $name}) SET e.description = $description`.
If a node with this label and name exists, its description is overwritten
(on every such node — Cypher `SET` acts per bound row); otherwise a fresh
node with the `name` and `description` properties is created. -/
def mergeEntityNode (ty name desc : String) (g : Graph) : Graph :=
  if (matchNodes (some ty) [("name", name)] g).isEmpty then
    createNode ty [("name", name), ("description", desc)] g
  else
    { g with nodes := g.nodes.map (fun n =>
        if nodeMatches (some ty) [("name", name)] n then
          { n with props := setProp "description" desc n.props }
        else n) }

/-- Cypher `MERGE (a)-[:lbl]->(b)` for two bound nodes: add the edge
unless an identical edge already exists. -/
def mergeEdge (s : Nat) (lbl : String) (t : Nat) (g : Graph) : Graph :=
  if (⟨s, lbl, t⟩ : Edge) ∈ g.edges then g
  else { g with edges := g.edges ++ [⟨s, lbl, t⟩] }

/-- The rows of `MATCH (a ...) MATCH (b ...)`: the cartesian product of the
two match sets, as (source id, target id) pairs. -/
def cartRows : List Node → List Node → List (Nat × Nat)
  | [], _ => []
  | a :: as, bs => bs.map (fun b => (a.nid, b.nid)) ++ cartRows as bs

/-- Lines 209–214 of the source, one entity:
`MATCH (d:Document {chunk_id: $chunk_id}) MATCH (e:<type> {name: $name})
MERGE (d)-[:HAS_<TYPE>]->(e)` — per row, merge a link edge labelled with
the uppercased entity type. -/
def runLinkQuery (cid ty name : String) (g : Graph) : Graph :=
  (cartRows (matchNodes (some "Document") [("chunk_id", cid)] g)
      (matchNodes (some ty) [("name", name)] g)).foldl
    (fun acc p => mergeEdge p.1 ("HAS_" ++ pyUpper ty) p.2 acc) g

/-- Lines 218–225 of the source, one candidate relationship:
`MATCH (a {name: $from_name}) MATCH (b {name: $to_name})
MERGE (a)-[:<type>]->(b)` — endpoints are matched by the `name` property
only, with no label restriction; per row, merge an edge labelled with the
relationship's declared type. -/
def runRelQuery (from_name to_name ty : String) (g : Graph) : Graph :=
  (cartRows (matchNodes none [("name", from_name)] g)
      (matchNodes none [("name", to_name)] g)).foldl
    (fun acc p => mergeEdge p.1 ty p.2 acc) g

/-! ## The ingestion engine -/

/-- Store state during ingestion: the graph plus a counter of
`session.run` write invocations (used by the failure oracle). -/
structure Store where
  g : Graph
  ops : Nat
  deriving DecidableEq

/-- The store right after a clean `setup_graph_store`. -/
def emptyStore : Store := { g := emptyGraph, ops := 0 }

/-- One `session.run(...)` write: the graph store either raises
(the oracle `failSet` contains this invocation's index) or applies the
statement's effect. -/
def runOp (failSet : List Nat) (f : Graph → Graph) (s : Store) :
    Except String Store :=
  if s.ops ∈ failSet then .error "graph store write failed"
  else .ok { g := f s.g, ops := s.ops + 1 }

/-- The chunk identifier `f"chunk_..."` built from the loop index. -/
def chunkId (i : Nat) : String := "chunk_" ++ toString i

/-- Lines 199–214 of the source: for each extracted entity, merge its node
(overwriting the description) and merge the document-to-entity link edge —
two `session.run` calls per entity. -/
def runEntityOps (failSet : List Nat) (cid : String) :
    List EntityDict → Store → Except String Store
  | [], s => .ok s
  | e :: rest, s =>
    match runOp failSet
        (mergeEntityNode e.type e.name (e.description.getD "")) s with
    | .error err => .error err
    | .ok s1 =>
      match runOp failSet (runLinkQuery cid e.type e.name) s1 with
      | .error err => .error err
      | .ok s2 => runEntityOps failSet cid rest s2

/-- Lines 217–225 of the source: for each candidate relationship, one
`session.run` merging the by-name matched edge. -/
def runRelOps (failSet : List Nat) :
    List RelDict → Store → Except String Store
  | [], s => .ok s
  | r :: rest, s =>
    match runOp failSet (runRelQuery r.from_ r.to_ r.type) s with
    | .error err => .error err
    | .ok s1 => runRelOps failSet rest s1

/-- The per-chunk body of the ingestion loop (lines 191–225): unconditionally
`CREATE` the Document node with the chunk summary, then the entity
merges/links, then the relationship merges. -/
def processChunk (failSet : List Nat) (i : Nat)
    (extraction : EntityExtractionResult) (s : Store) :
    Except String Store :=
  match runOp failSet
      (createNode "Document"
        [("chunk_id", chunkId i), ("summary", extraction.chunk_summary)]) s with
  | .error err => .error err
  | .ok s1 =>
    match runEntityOps failSet (chunkId i) extraction.entities s1 with
    | .error err => .error err
    | .ok s2 => runRelOps failSet extraction.relationships s2

/-- The ingestion loop of lines 181–225 (`for i, doc in enumerate(...)`):
extract, skip the chunk when the extraction yields no entities, otherwise
process it.  Any raised store error propagates immediately (the loop body
has no `try`/`except`). -/
def ingestLoop (extract : String → EntityExtractionResult)
    (failSet : List Nat) :
    Nat → List String → Store → Except String Store
  | _, [], s => .ok s
  | i, d :: rest, s =>
    let extraction := extract d
    if extraction.entities.isEmpty then
      ingestLoop extract failSet (i + 1) rest s
    else
      match processChunk failSet i extraction s with
      | .error err => .error err
      | .ok s1 => ingestLoop extract failSet (i + 1) rest s1

/-- Method `SemanticGraphRAG.ingest_documents_semantically`: iterate over
`documents[:20]` (the hard-coded demo cap) starting at chunk index 0.
Documents are represented by their text (`doc.text` is all the loop reads);
`extract` is `self.extractor.extract_entities_from_chunk`. -/
def ingest_documents_semantically (extract : String → EntityExtractionResult)
    (failSet : List Nat) (documents : List String) (s : Store) :
    Except String Store :=
  ingestLoop extract failSet 0 (documents.take 20) s

/-! ## Chain-of-thought querying -/

/-- Lines 254–258 of the source: render each retrieved context fragment as
a bulleted line and join with newlines. -/
def buildContext (fragments : List String) : String :=
  String.intercalate "\n" (fragments.map (fun t => "- " ++ t))

/-- The fixed chain-of-thought template of lines 261–274, with the context
block and the question interpolated. -/
def cot_prompt (context question : String) : String :=
  "You are an expert SAP HANA on VMware consultant. Answer the question using chain-of-thought reasoning.\n\nCONTEXT from semantic knowledge graph:\n"
  ++ context ++
  "\n\nQUESTION: " ++ question ++
  "\n\nThink step-by-step:\n1. What SAP HANA concepts are involved in this question?\n2. What configuration parameters or components are relevant?\n3. How do these elements interact in a VMware environment?\n4. What specific recommendations apply?\n\nFINAL ANSWER: Provide a comprehensive response based on your analysis, including specific parameters and recommendations."

/-- Method `SemanticGraphRAG.query_with_chain_of_thought`: retrieve context
fragments, build the chain-of-thought prompt, call the completion service
and return `response.choices[0].message.content` verbatim.  The call sits
in no `try`/`except`: a service error (or an empty `choices` list, which
raises `IndexError`) propagates to the caller. -/
def query_with_chain_of_thought (retrieve : String → List String)
    (svc : String → Except String Completion) (question : String) :
    Except String (Option String) :=
  match svc (cot_prompt (buildContext (retrieve question)) question) with
  | .error e => .error e
  | .ok resp =>
    match resp.choices.head? with
    | none => .error "list index out of range"
    | some choice => .ok choice.message.content

/-! ## Lemmas about the graph primitives -/

theorem mem_matchNodes {lbl : Option String} {req : List (String × String)}
    {g : Graph} {n : Node} :
    n ∈ matchNodes lbl req g ↔ n ∈ g.nodes ∧ nodeMatches lbl req n = true := by
  simp [matchNodes, List.mem_filter]

theorem nodeMatches_none_name {v : String} {n : Node} :
    nodeMatches none [("name", v)] n = true ↔ getProp n "name" = some v := by
  simp [nodeMatches]

theorem nodeMatches_some_name {l v : String} {n : Node} :
    nodeMatches (some l) [("name", v)] n = true ↔
      n.label = l ∧ getProp n "name" = some v := by
  simp [nodeMatches]

theorem nodes_mergeEdge {s t : Nat} {l : String} {g : Graph} :
    (mergeEdge s l t g).nodes = g.nodes := by
  unfold mergeEdge; split <;> rfl

theorem mem_edges_mergeEdge {s t : Nat} {l : String} {g : Graph} {e : Edge} :
    e ∈ (mergeEdge s l t g).edges ↔ e ∈ g.edges ∨ e = ⟨s, l, t⟩ := by
  unfold mergeEdge
  split
  · rename_i hmem
    constructor
    · exact fun h => Or.inl h
    · rintro (h | rfl)
      · exact h
      · exact hmem
  · simp

theorem nodup_edges_mergeEdge {s t : Nat} {l : String} {g : Graph}
    (h : g.edges.Nodup) : (mergeEdge s l t g).edges.Nodup := by
  unfold mergeEdge
  split
  · exact h
  · rename_i hmem
    simp only [List.nodup_append, List.nodup_cons, List.nodup_nil,
      List.Disjoint]
    refine ⟨h, ⟨by simp, trivial⟩, ?_⟩
    intro a ha hb
    simp only [List.mem_singleton] at hb
    exact hmem (hb ▸ ha)

theorem nodes_foldl_mergeEdge (rows : List (Nat × Nat)) (L : String)
    (g : Graph) :
    (rows.foldl (fun acc p => mergeEdge p.1 L p.2 acc) g).nodes = g.nodes := by
  induction rows generalizing g with
  | nil => rfl
  | cons p rows ih => simp [List.foldl_cons, ih, nodes_mergeEdge]

theorem mem_edges_foldl_mergeEdge (rows : List (Nat × Nat)) (L : String)
    (g : Graph) (e : Edge) :
    e ∈ (rows.foldl (fun acc p => mergeEdge p.1 L p.2 acc) g).edges ↔
      e ∈ g.edges ∨ ∃ p ∈ rows, e = ⟨p.1, L, p.2⟩ := by
  induction rows generalizing g with
  | nil => simp
  | cons q rows ih =>
    simp only [List.foldl_cons, ih, mem_edges_mergeEdge, List.mem_cons]
    constructor
    · rintro ((h | rfl) | ⟨p, hp, rfl⟩)
      · exact Or.inl h
      · exact Or.inr ⟨q, Or.inl rfl, rfl⟩
      · exact Or.inr ⟨p, Or.inr hp, rfl⟩
    · rintro (h | ⟨p, (rfl | hp), rfl⟩)
      · exact Or.inl (Or.inl h)
      · exact Or.inl (Or.inr rfl)
      · exact Or.inr ⟨p, hp, rfl⟩

theorem nodup_edges_foldl_mergeEdge (rows : List (Nat × Nat)) (L : String)
    (g : Graph) (h : g.edges.Nodup) :
    (rows.foldl (fun acc p => mergeEdge p.1 L p.2 acc) g).edges.Nodup := by
  induction rows generalizing g with
  | nil => exact h
  | cons q rows ih => exact ih _ (nodup_edges_mergeEdge h)

theorem cartRows_nil_right (as : List Node) : cartRows as [] = [] := by
  induction as with
  | nil => rfl
  | cons a as ih => simp [cartRows, ih]

theorem mem_cartRows {as bs : List Node} {p : Nat × Nat} :
    p ∈ cartRows as bs ↔ ∃ a ∈ as, ∃ b ∈ bs, p = (a.nid, b.nid) := by
  induction as with
  | nil => simp [cartRows]
  | cons a as ih =>
    simp only [cartRows, List.mem_append, List.mem_map, ih, List.mem_cons]
    constructor
    · rintro (⟨b, hb, rfl⟩ | ⟨a', ha', b, hb, rfl⟩)
      · exact ⟨a, Or.inl rfl, b, hb, rfl⟩
      · exact ⟨a', Or.inr ha', b, hb, rfl⟩
    · rintro ⟨a', (rfl | ha'), b, hb, rfl⟩
      · exact Or.inl ⟨b, hb, rfl⟩
      · exact Or.inr ⟨a', ha', b, hb, rfl⟩

/-- Claim **C5.** When ingesting a candidate relationship, the two endpoint nodes
are matched purely by the `name` property with no type or label restriction
— an endpoint name binds to any node carrying that `name`, whatever its
label (an entity label or the `Document` label alike) — and every edge the
query adds is directed from the from-match to the to-match and carries the
relationship's declared type string as its edge label: an edge is in the
resulting graph iff it was already present or joins such a by-name matched
pair under the declared type label. -/
theorem relationship_endpoints_matched_by_name_only
    (g : Graph) (from_name to_name ty : String) (e : Edge) :
    e ∈ (runRelQuery from_name to_name ty g).edges ↔
      e ∈ g.edges ∨
        ∃ a ∈ g.nodes, ∃ b ∈ g.nodes,
          getProp a "name" = some from_name ∧
          getProp b "name" = some to_name ∧
          e = ⟨a.nid, ty, b.nid⟩ := by
  unfold runRelQuery
  rw [mem_edges_foldl_mergeEdge]
  constructor
  · rintro (h | ⟨p, hp, rfl⟩)
    · exact Or.inl h
    · rcases mem_cartRows.mp hp with ⟨a, ha, b, hb, rfl⟩
      rcases mem_matchNodes.mp ha with ⟨haN, haM⟩
      rcases mem_matchNodes.mp hb with ⟨hbN, hbM⟩
      exact Or.inr ⟨a, haN, b, hbN, nodeMatches_none_name.mp haM,
        nodeMatches_none_name.mp hbM, rfl⟩
  · rintro (h | ⟨a, ha, b, hb, hfa, hfb, rfl⟩)
    · exact Or.inl h
    · refine Or.inr ⟨(a.nid, b.nid), ?_, rfl⟩
      exact mem_cartRows.mpr
        ⟨a, mem_matchNodes.mpr ⟨ha, nodeMatches_none_name.mpr hfa⟩,
         b, mem_matchNodes.mpr ⟨hb, nodeMatches_none_name.mpr hfb⟩, rfl⟩

/-- Claim **C9.** (a) If a candidate relationship's from-name or to-name matches
no node currently in the graph, the merge query creates no edge and leaves
the graph unchanged — the relationship is silently dropped, no error is
signalled (the query is total). (b) If the names match several nodes, an
edge is created for every matching endpoint pair. -/
theorem unmatched_relationship_dropped_and_multimatch_fans_out
    (g : Graph) (from_name to_name ty : String) :
    (((∀ a ∈ g.nodes, getProp a "name" ≠ some from_name) ∨
      (∀ b ∈ g.nodes, getProp b "name" ≠ some to_name)) →
        runRelQuery from_name to_name ty g = g) ∧
    (∀ a ∈ g.nodes, ∀ b ∈ g.nodes,
      getProp a "name" = some from_name →
      getProp b "name" = some to_name →
      (⟨a.nid, ty, b.nid⟩ : Edge) ∈ (runRelQuery from_name to_name ty g).edges) := by
  constructor
  · intro h
    have hrows : cartRows (matchNodes none [("name", from_name)] g)
        (matchNodes none [("name", to_name)] g) = [] := by
      rcases h with h | h
      · have : matchNodes none [("name", from_name)] g = [] := by
          apply List.filter_eq_nil_iff.mpr
          intro a ha hm
          exact h a ha (nodeMatches_none_name.mp hm)
        rw [this]; rfl
      · have : matchNodes none [("name", to_name)] g = [] := by
          apply List.filter_eq_nil_iff.mpr
          intro b hb hm
          exact h b hb (nodeMatches_none_name.mp hm)
        rw [this]; exact cartRows_nil_right _
    unfold runRelQuery
    rw [hrows]
    rfl
  · intro a ha b hb hfa hfb
    unfold runRelQuery
    rw [mem_edges_foldl_mergeEdge]
    refine Or.inr ⟨(a.nid, b.nid), ?_, rfl⟩
    exact mem_cartRows.mpr
      ⟨a, mem_matchNodes.mpr ⟨ha, nodeMatches_none_name.mpr hfa⟩,
       b, mem_matchNodes.mpr ⟨hb, nodeMatches_none_name.mpr hfb⟩, rfl⟩

/-! ## The (type, name) uniqueness invariant -/

/-- Two nodes do not clash on the merge key: if they carry the same label
and the same `name` property value, that value must be absent.  Pairwise
over the node list, this says the graph holds at most one node per
(label, name) pair among nodes that have a `name` at all. -/
def distinctKey (a b : Node) : Prop :=
  a.label = b.label → getProp a "name" = getProp b "name" →
    getProp a "name" = none

/-- The graph-store invariant: at most one node per (label, name) merge key,
and no duplicate edges. -/
def graphInv (g : Graph) : Prop :=
  g.nodes.Pairwise distinctKey ∧ g.edges.Nodup

theorem propLookup_map_set {k k' v : String}
    (h : k' ≠ k) (l : List (String × String)) :
    propLookup (l.map (fun p => if p.1 == k then (k, v) else p)) k' =
      propLookup l k' := by
  induction l with
  | nil => rfl
  | cons p l ih =>
    simp only [List.map_cons]
    by_cases hpk : p.1 = k
    · have hb : (p.1 == k) = true := beq_iff_eq.mpr hpk
      have hk : (k == k') = false := beq_eq_false_iff_ne.mpr (Ne.symm h)
      have hp : (p.1 == k') = false :=
        beq_eq_false_iff_ne.mpr (by rw [hpk]; exact Ne.symm h)
      simp only [propLookup, List.find?, hb, if_true, hk, hp] at *
      exact ih
    · have hb : (p.1 == k) = false := beq_eq_false_iff_ne.mpr hpk
      cases hpq : (p.1 == k')
      · simpa [propLookup, List.find?, hb, hpq] using ih
      · simp [propLookup, List.find?, hb, hpq]

theorem propLookup_setProp_ne {k k' v : String}
    (h : k' ≠ k) (ps : List (String × String)) :
    propLookup (setProp k v ps) k' = propLookup ps k' := by
  unfold setProp
  split
  · exact propLookup_map_set h ps
  · unfold propLookup
    rw [List.find?_append]
    have : List.find? (fun p => p.1 == k') [(k, v)] = none := by
      simp [List.find?, beq_eq_false_iff_ne.mpr (Ne.symm h)]
    rw [this, Option.or_none]

/-- The per-row update of `MERGE ... SET e.description = ...` does not
change a node's label or `name` property. -/
theorem getProp_name_setDescription (n : Node) (d : String) :
    getProp { n with props := setProp "description" d n.props } "name" =
      getProp n "name" := by
  unfold getProp
  exact propLookup_setProp_ne (by decide) n.props

theorem pairwise_append_single {l : List Node} {b : Node}
    (h : l.Pairwise distinctKey) (hb : ∀ a ∈ l, distinctKey a b) :
    (l ++ [b]).Pairwise distinctKey := by
  rw [List.pairwise_append]
  exact ⟨h, List.pairwise_singleton _ _, fun a ha b' hb' => by
    rcases List.mem_singleton.mp hb' with rfl
    exact hb a ha⟩

/-- A `CREATE` of a node that has no `name` property (the Document node)
preserves key-uniqueness: a nameless node clashes with nothing. -/
theorem pairwise_createNode_nameless {g : Graph} {lbl : String}
    {props : List (String × String)}
    (hinv : g.nodes.Pairwise distinctKey)
    (hname : propLookup props "name" = none) :
    (createNode lbl props g).nodes.Pairwise distinctKey := by
  apply pairwise_append_single hinv
  intro a _
  intro _ heq
  rw [heq]
  exact hname

/-- The statement `MERGE (e:ty \x7bname\x7d) SET e.description` preserves key-uniqueness. -/
theorem pairwise_mergeEntityNode {g : Graph} (ty nm d : String)
    (hinv : g.nodes.Pairwise distinctKey) :
    (mergeEntityNode ty nm d g).nodes.Pairwise distinctKey := by
  unfold mergeEntityNode
  split
  · rename_i hempty
    apply pairwise_append_single hinv
    intro a ha
    intro hl heq
    exfalso
    have haM : nodeMatches (some ty) [("name", nm)] a = true := by
      apply nodeMatches_some_name.mpr
      refine ⟨hl, ?_⟩
      rw [heq]
      rfl
    have : a ∈ matchNodes (some ty) [("name", nm)] g :=
      mem_matchNodes.mpr ⟨ha, haM⟩
    rw [List.isEmpty_iff.mp hempty] at this
    exact (List.not_mem_nil a) this
  · apply List.Pairwise.map _ _ hinv
    intro a b hab
    have hlbl : ∀ n : Node,
        ((fun n => if nodeMatches (some ty) [("name", nm)] n then
          { n with props := setProp "description" d n.props } else n) n).label
          = n.label := by
      intro n; dsimp only; split <;> rfl
    have hnm : ∀ n : Node,
        getProp ((fun n => if nodeMatches (some ty) [("name", nm)] n then
          { n with props := setProp "description" d n.props } else n) n) "name"
          = getProp n "name" := by
      intro n; dsimp only; split
      · exact getProp_name_setDescription n d
      · rfl
    intro hl heq
    rw [hnm a] at heq ⊢
    rw [hnm b] at heq
    rw [hlbl a, hlbl b] at hl
    exact hab hl heq

theorem graphInv_createNode_nameless {g : Graph} {lbl : String}
    {props : List (String × String)}
    (hinv : graphInv g) (hname : propLookup props "name" = none) :
    graphInv (createNode lbl props g) :=
  ⟨pairwise_createNode_nameless hinv.1 hname, hinv.2⟩

theorem graphInv_mergeEntityNode {g : Graph} (ty nm d : String)
    (hinv : graphInv g) : graphInv (mergeEntityNode ty nm d g) := by
  refine ⟨pairwise_mergeEntityNode ty nm d hinv.1, ?_⟩
  unfold mergeEntityNode
  split
  · exact hinv.2
  · exact hinv.2

theorem graphInv_runLinkQuery {g : Graph} (cid ty nm : String)
    (hinv : graphInv g) : graphInv (runLinkQuery cid ty nm g) := by
  unfold runLinkQuery
  exact ⟨by rw [nodes_foldl_mergeEdge]; exact hinv.1,
    nodup_edges_foldl_mergeEdge _ _ _ hinv.2⟩

theorem graphInv_runRelQuery {g : Graph} (f t ty : String)
    (hinv : graphInv g) : graphInv (runRelQuery f t ty g) := by
  unfold runRelQuery
  exact ⟨by rw [nodes_foldl_mergeEdge]; exact hinv.1,
    nodup_edges_foldl_mergeEdge _ _ _ hinv.2⟩

/-! ## Invariant preservation through the ingestion engine -/

theorem runOp_ok {failSet : List Nat} {f : Graph → Graph} {s s' : Store}
    (h : runOp failSet f s = .ok s') : s'.g = f s.g := by
  unfold runOp at h
  split at h
  · exact absurd h (by simp)
  · cases h
    rfl

/-- The Document node is created without a `name` property. -/
theorem propLookup_document_props (c su : String) :
    propLookup [("chunk_id", c), ("summary", su)] "name" = none := rfl

theorem graphInv_runEntityOps {failSet : List Nat} {cid : String} :
    ∀ (es : List EntityDict) (s s' : Store),
      runEntityOps failSet cid es s = .ok s' → graphInv s.g → graphInv s'.g := by
  intro es
  induction es with
  | nil =>
    intro s s' h hinv
    cases h
    exact hinv
  | cons e rest ih =>
    intro s s' h hinv
    unfold runEntityOps at h
    cases h1 : runOp failSet
        (mergeEntityNode e.type e.name (e.description.getD "")) s with
    | error err => rw [h1] at h; exact absurd h (by simp)
    | ok s1 =>
      rw [h1] at h
      dsimp only at h
      cases h2 : runOp failSet (runLinkQuery cid e.type e.name) s1 with
      | error err => rw [h2] at h; exact absurd h (by simp)
      | ok s2 =>
        rw [h2] at h
        have hinv1 : graphInv s1.g := by
          rw [runOp_ok h1]
          exact graphInv_mergeEntityNode _ _ _ hinv
        have hinv2 : graphInv s2.g := by
          rw [runOp_ok h2]
          exact graphInv_runLinkQuery _ _ _ hinv1
        exact ih s2 s' h hinv2

theorem graphInv_runRelOps {failSet : List Nat} :
    ∀ (rs : List RelDict) (s s' : Store),
      runRelOps failSet rs s = .ok s' → graphInv s.g → graphInv s'.g := by
  intro rs
  induction rs with
  | nil =>
    intro s s' h hinv
    cases h
    exact hinv
  | cons r rest ih =>
    intro s s' h hinv
    unfold runRelOps at h
    cases h1 : runOp failSet (runRelQuery r.from_ r.to_ r.type) s with
    | error err => rw [h1] at h; exact absurd h (by simp)
    | ok s1 =>
      rw [h1] at h
      have hinv1 : graphInv s1.g := by
        rw [runOp_ok h1]
        exact graphInv_runRelQuery _ _ _ hinv
      exact ih s1 s' h hinv1

theorem graphInv_processChunk {failSet : List Nat} {i : Nat}
    {extraction : EntityExtractionResult} {s s' : Store}
    (h : processChunk failSet i extraction s = .ok s')
    (hinv : graphInv s.g) : graphInv s'.g := by
  unfold processChunk at h
  cases h1 : runOp failSet
      (createNode "Document"
        [("chunk_id", chunkId i), ("summary", extraction.chunk_summary)]) s with
  | error err => rw [h1] at h; exact absurd h (by simp)
  | ok s1 =>
    rw [h1] at h
    dsimp only at h
    have hinv1 : graphInv s1.g := by
      rw [runOp_ok h1]
      exact graphInv_createNode_nameless hinv (propLookup_document_props _ _)
    cases h2 : runEntityOps failSet (chunkId i) extraction.entities s1 with
    | error err => rw [h2] at h; exact absurd h (by simp)
    | ok s2 =>
      rw [h2] at h
      exact graphInv_runRelOps _ s2 s' h
        (graphInv_runEntityOps _ s1 s2 h2 hinv1)

theorem graphInv_ingestLoop {extract : String → EntityExtractionResult}
    {failSet : List Nat} :
    ∀ (docs : List String) (i : Nat) (s s' : Store),
      ingestLoop extract failSet i docs s = .ok s' →
      graphInv s.g → graphInv s'.g := by
  intro docs
  induction docs with
  | nil =>
    intro i s s' h hinv
    cases h
    exact hinv
  | cons d rest ih =>
    intro i s s' h hinv
    unfold ingestLoop at h
    by_cases hemp : (extract d).entities.isEmpty
    · rw [if_pos hemp] at h
      exact ih (i + 1) s s' h hinv
    · rw [if_neg hemp] at h
      cases h1 : processChunk failSet i (extract d) s with
      | error err => rw [h1] at h; exact absurd h (by simp)
      | ok s1 =>
        rw [h1] at h
        exact ih (i + 1) s1 s' h (graphInv_processChunk h1 hinv)

/-! ## Claim theorems: ingestion -/

/-- Claim **C1 (amended).** Re-running ingestion (with identical extraction
output) leaves at most one node per (type, name) entity merge key and keeps
the edge list free of duplicate edges — but it does *not* keep node and
edge counts unchanged: the Document node is written with `CREATE`, not
`MERGE`, so every pass adds a fresh Document node per ingested chunk and
new chunk-to-entity link edges from it (see the counterexample).  Formally:
any ingestion run started from a store satisfying the key-uniqueness and
edge-duplicate-freeness invariant (in particular a store produced by a
previous run of the same ingestion) ends in a store satisfying it. -/
theorem ingestion_preserves_entity_key_uniqueness
    (extract : String → EntityExtractionResult) (failSet : List Nat)
    (documents : List String) (s s' : Store)
    (hinv : graphInv s.g)
    (h : ingest_documents_semantically extract failSet documents s = .ok s') :
    graphInv s'.g :=
  graphInv_ingestLoop _ 0 s s' h hinv

/-- Claim **C3 (amended).** A graph-store write failure while processing one
chunk aborts the ingestion loop at once: the store's error propagates
verbatim to the caller, and the subsequent chunks (`rest`) are never
extracted or written — the engine has no per-chunk `try`/`except` and
accumulates no failure report.  `docsBefore` is any prefix of chunks the
loop has already got through. -/
theorem write_failure_aborts_remaining_chunks
    (extract : String → EntityExtractionResult) (failSet : List Nat)
    (docsBefore : List String) (d : String) (rest : List String)
    (i : Nat) (s s_mid : Store) (err : String)
    (h1 : ingestLoop extract failSet i docsBefore s = .ok s_mid)
    (h2 : (extract d).entities.isEmpty = false)
    (h3 : processChunk failSet (i + docsBefore.length) (extract d) s_mid =
      .error err) :
    ingestLoop extract failSet i (docsBefore ++ d :: rest) s = .error err := by
  induction docsBefore generalizing i s with
  | nil =>
    cases h1
    simp only [List.length_nil, Nat.add_zero] at h3
    rw [List.nil_append]
    simp only [ingestLoop]
    rw [if_neg (by simp [h2]), h3]
  | cons d0 ds ih =>
    have harith : i + (d0 :: ds).length = (i + 1) + ds.length := by
      simp only [List.length_cons]
      omega
    rw [harith] at h3
    simp only [List.cons_append, ingestLoop] at h1 ⊢
    by_cases hemp : (extract d0).entities.isEmpty
    · rw [if_pos hemp] at h1 ⊢
      exact ih (i + 1) s h1 h3
    · rw [if_neg hemp] at h1 ⊢
      cases hpc : processChunk failSet i (extract d0) s with
      | error e0 =>
        rw [hpc] at h1
        exact absurd h1 (by simp)
      | ok s1 =>
        rw [hpc] at h1
        dsimp only at h1 ⊢
        exact ih (i + 1) s1 h1 h3

/-- Claim **C7.** The number of chunks processed per ingestion run is bounded by
the hard cap (`documents[:20]`, hard-coded to 20 in the source): for any
document list at least 20 chunks long, appending further chunks changes
nothing — the chunks past the cap are never extracted and never written,
since the run's entire outcome is independent of them. -/
theorem chunk_cap_bounds_ingestion
    (extract : String → EntityExtractionResult) (failSet : List Nat)
    (documents extra : List String) (s : Store)
    (h : 20 ≤ documents.length) :
    ingest_documents_semantically extract failSet (documents ++ extra) s =
      ingest_documents_semantically extract failSet documents s := by
  unfold ingest_documents_semantically
  rw [List.take_append_of_le_length h]

/-- Claim **C8.** A chunk whose extraction result has no entities is skipped:
the loop moves on to the next chunk with the store untouched (no Document
node, entity node or edge is written for the chunk) and raises no error —
the run continues exactly as if processing had started at the next chunk. -/
theorem empty_extraction_skips_chunk
    (extract : String → EntityExtractionResult) (failSet : List Nat)
    (i : Nat) (d : String) (rest : List String) (s : Store)
    (h : (extract d).entities = []) :
    ingestLoop extract failSet i (d :: rest) s =
      ingestLoop extract failSet (i + 1) rest s := by
  simp only [ingestLoop, h, List.isEmpty_nil, if_true]

/-! ## Claim theorems: extraction and querying -/

/-- Claim **C2.** For every chunk text, if the completion-service call raises an
error, or the call succeeds but the (stripped, fence-trimmed) reply fails
to parse as JSON, `extract_entities_from_chunk` returns the
`EntityExtractionResult` with empty entities, empty relationships and an
empty summary — and, being a total function into results rather than
exceptions, raises nothing to its caller. -/
theorem extraction_failure_degrades_to_empty_result
    (svc : String → Except String Completion)
    (parse : String → Option PyJson) (text_chunk : String)
    (h : (∃ e, svc (extraction_prompt text_chunk) = .error e) ∨
         (∃ resp choice content,
            svc (extraction_prompt text_chunk) = .ok resp ∧
            resp.choices.head? = some choice ∧
            choice.message.content = some content ∧
            parse (preprocessReply content) = none)) :
    extract_entities_from_chunk svc parse text_chunk = emptyResult := by
  unfold extract_entities_from_chunk
  rcases h with ⟨e, he⟩ | ⟨resp, choice, content, hs, hc, hm, hp⟩
  · rw [he]
  · simp only [hs, hc, hm, hp]

/-- Claim **C10.** If the completion reply parses as valid JSON, each of the
three top-level fields that is missing is replaced by its empty default
(`[]`, `[]`, `""` respectively) while the present fields are returned as
parsed — the result does not degrade to the full empty fallback. -/
theorem missing_reply_fields_default_individually
    (svc : String → Except String Completion)
    (parse : String → Option PyJson) (text_chunk : String)
    (resp : Completion) (choice : Choice) (content : String) (j : PyJson)
    (hs : svc (extraction_prompt text_chunk) = .ok resp)
    (hc : resp.choices.head? = some choice)
    (hm : choice.message.content = some content)
    (hp : parse (preprocessReply content) = some j) :
    extract_entities_from_chunk svc parse text_chunk =
      { entities := j.entities.getD []
        relationships := j.relationships.getD []
        chunk_summary := j.chunk_summary.getD "" } := by
  unfold extract_entities_from_chunk applyFieldDefaults
  simp only [hs, hc, hm, hp]

/-- Claim **C4.** For every question, a completion-service failure during
chain-of-thought answer synthesis propagates verbatim to the caller of
`query_with_chain_of_thought` — no empty or default answer is substituted
(the call sits in no `try`/`except`, unlike the extractor's fallback). -/
theorem synthesis_failure_propagates_to_caller
    (retrieve : String → List String)
    (svc : String → Except String Completion) (question : String)
    (e : String)
    (h : svc (cot_prompt (buildContext (retrieve question)) question) =
      .error e) :
    query_with_chain_of_thought retrieve svc question = .error e := by
  unfold query_with_chain_of_thought
  rw [h]

/-! ## String lemmas for the markdown-fence stripping -/

/-- The backtick character (written via `fenceTicks` so that the character
appears only inside string literals). -/
def btick : Char := fenceTicks.headD ' '

theorem fenceTicks_eq : fenceTicks = [btick, btick, btick] := by decide

theorem fenceJson_eq :
    fenceJson = [btick, btick, btick, 'j', 's', 'o', 'n'] := by decide

theorem pySplitAux_fuel {sep : List Char} (hsep : sep ≠ []) :
    ∀ (fuel fuel' : Nat) (s : List Char), s.length ≤ fuel →
      s.length ≤ fuel' → pySplitAux sep fuel s = pySplitAux sep fuel' s := by
  intro fuel
  induction fuel with
  | zero =>
    intro fuel' s hs _
    cases s with
    | nil => cases fuel' <;> rfl
    | cons c rest => exact absurd hs (by simp)
  | succ f ihf =>
    intro fuel' s hs hs'
    cases s with
    | nil => cases fuel' <;> rfl
    | cons c rest =>
      cases fuel' with
      | zero => exact absurd hs' (by simp)
      | succ f' =>
        have hsepLen : 1 ≤ sep.length := by
          cases sep with
          | nil => exact absurd rfl hsep
          | cons a as => simp
        simp only [List.length_cons] at hs hs'
        simp only [pySplitAux]
        split
        · have hdrop : ((c :: rest).drop sep.length).length ≤ f := by
            simp only [List.length_drop, List.length_cons]
            omega
          have hdrop' : ((c :: rest).drop sep.length).length ≤ f' := by
            simp only [List.length_drop, List.length_cons]
            omega
          rw [ihf f' _ hdrop hdrop']
        · have hr : rest.length ≤ f := by omega
          have hr' : rest.length ≤ f' := by omega
          rw [ihf f' rest hr hr']

theorem isPrefixOf_append_self (l rest : List Char) :
    l.isPrefixOf (l ++ rest) = true := by
  induction l with
  | nil => simp [List.isPrefixOf]
  | cons c t ih => simp [List.isPrefixOf, ih]

theorem pySplit_cons_of_no_match {sep : List Char} {c : Char}
    {t : List Char} (h : ¬ sep.isPrefixOf (c :: t)) :
    pySplit sep (c :: t) =
      match pySplit sep t with
      | [] => [[c]]
      | p :: ps => (c :: p) :: ps := by
  simp only [pySplit, List.length_cons, pySplitAux, if_neg h]

theorem pySplit_leading_sep {sep : List Char} (hsep : sep ≠ [])
    (rest : List Char) :
    pySplit sep (sep ++ rest) = [] :: pySplit sep rest := by
  cases hsepc : sep with
  | nil => exact absurd hsepc hsep
  | cons c0 sep0 =>
    rw [← hsepc]
    have hpre : sep.isPrefixOf (sep ++ rest) := isPrefixOf_append_self _ _
    have hne : sep ++ rest ≠ [] := by
      simp [hsepc]
    cases hs : sep ++ rest with
    | nil => exact absurd hs hne
    | cons a t =>
      rw [← hs]
      have hlen : (sep ++ rest).length = t.length + 1 := by
        rw [hs]
        simp
      unfold pySplit
      rw [hlen]
      have hunf : pySplitAux sep (t.length + 1) (sep ++ rest) =
          [] :: pySplitAux sep t.length ((sep ++ rest).drop sep.length) := by
        rw [hs]
        have hpre' : sep.isPrefixOf (a :: t) := hs ▸ hpre
        simp only [pySplitAux, if_pos hpre']
      rw [hunf, List.drop_left]
      have hrlen : rest.length ≤ t.length := by
        have h1 : sep.length + rest.length = t.length + 1 := by
          rw [← List.length_append, hlen]
        have h2 : 1 ≤ sep.length := by
          rw [hsepc]
          simp
        omega
      exact congrArg (fun x => [] :: x)
        (pySplitAux_fuel hsep _ _ rest hrlen le_rfl)

theorem isPrefixOf_fenceTicks_false {c : Char} (hc : c ≠ btick)
    (l : List Char) : fenceTicks.isPrefixOf (c :: l) = false := by
  rw [fenceTicks_eq]
  simp [List.isPrefixOf, beq_eq_false_iff_ne.mpr (Ne.symm hc)]

theorem isPrefixOf_fenceJson_false {c : Char} (hc : c ≠ btick)
    (l : List Char) : fenceJson.isPrefixOf (c :: l) = false := by
  rw [fenceJson_eq]
  simp [List.isPrefixOf, beq_eq_false_iff_ne.mpr (Ne.symm hc)]

/-- A backtick-free fragment followed by a closing fence splits on the
fence into exactly the fragment and an empty trailing piece. -/
theorem pySplit_fenceTicks_closing {inner : List Char}
    (h : ∀ c ∈ inner, c ≠ btick) :
    pySplit fenceTicks (inner ++ fenceTicks) = [inner, []] := by
  induction inner with
  | nil => decide
  | cons c inner ih =>
    have hc : c ≠ btick := h c (List.mem_cons_self c inner)
    have hrec := ih (fun x hx => h x (List.mem_cons_of_mem c hx))
    rw [List.cons_append,
      pySplit_cons_of_no_match (by simp [isPrefixOf_fenceTicks_false hc]),
      hrec]

/-- The `'```json'` marker never occurs inside a backtick-free fragment
followed by the plain closing fence, so the split is trivial. -/
theorem pySplit_fenceJson_no_occurrence {inner : List Char}
    (h : ∀ c ∈ inner, c ≠ btick) :
    pySplit fenceJson (inner ++ fenceTicks) = [inner ++ fenceTicks] := by
  induction inner with
  | nil => decide
  | cons c inner ih =>
    have hc : c ≠ btick := h c (List.mem_cons_self c inner)
    have hrec := ih (fun x hx => h x (List.mem_cons_of_mem c hx))
    rw [List.cons_append,
      pySplit_cons_of_no_match (by simp [isPrefixOf_fenceJson_false hc]),
      hrec]

/-- Python `str.strip()` is the identity on a string that starts and ends with a
backtick. -/
theorem pyStripCh_tick_ends (mid : List Char) :
    pyStripCh (btick :: mid ++ [btick]) = btick :: mid ++ [btick] := by
  have hws : btick.isWhitespace = false := by decide
  have h1 : List.dropWhile Char.isWhitespace (btick :: (mid ++ [btick])) =
      btick :: (mid ++ [btick]) := by
    rw [List.dropWhile_cons, hws]
    simp
  have h2 : (btick :: (mid ++ [btick])).reverse =
      btick :: (mid.reverse ++ [btick]) := by
    simp
  have h3 : List.dropWhile Char.isWhitespace
      (btick :: (mid.reverse ++ [btick])) =
      btick :: (mid.reverse ++ [btick]) := by
    rw [List.dropWhile_cons, hws]
    simp
  unfold pyStripCh
  rw [List.cons_append, h1, h2, h3]
  simp

/-- The full preprocessing pipeline (strip, `startswith('```json')` test,
double split) recovers exactly the inner payload of a reply fenced as
`'```json' + inner + '```'`, for any backtick-free payload. -/
theorem preprocessReply_json_fenced (inner : List Char)
    (hfree : ∀ c ∈ inner, c ≠ btick) :
    preprocessReply (String.mk (fenceJson ++ inner ++ fenceTicks)) =
      String.mk inner := by
  simp only [preprocessReply]
  have htl : (String.mk (fenceJson ++ inner ++ fenceTicks)).toList =
      fenceJson ++ inner ++ fenceTicks := rfl
  rw [htl]
  have hshape : fenceJson ++ inner ++ fenceTicks =
      (btick :: ([btick, btick, 'j', 's', 'o', 'n'] ++ inner ++ [btick, btick]))
        ++ [btick] := by
    rw [fenceJson_eq, fenceTicks_eq]
    simp
  rw [hshape, pyStripCh_tick_ends, ← hshape]
  have hpre : fenceJson.isPrefixOf (fenceJson ++ inner ++ fenceTicks) = true := by
    rw [List.append_assoc]
    exact isPrefixOf_append_self _ _
  rw [if_pos hpre, List.append_assoc,
    pySplit_leading_sep (by decide) (inner ++ fenceTicks),
    pySplit_fenceJson_no_occurrence hfree, List.getD_cons_succ,
    List.getD_cons_zero, pySplit_fenceTicks_closing hfree,
    List.getD_cons_zero]

/-- Claim **C6 (amended).** For every completion reply wrapped in a Markdown code
fence *opened with* `'```json'` (the only fence form the code strips) whose
inner content is backtick-free and parses as JSON, the extractor strips the
fence before parsing and returns the parsed entities, relationships and
summary (with per-field defaults) instead of the empty fallback.  A reply
wrapped in a plain `'```'` fence is *not* stripped — see the
counterexample. -/
theorem json_fenced_reply_parsed_after_fence_strip
    (svc : String → Except String Completion)
    (parse : String → Option PyJson) (text_chunk : String)
    (resp : Completion) (choice : Choice) (inner : List Char) (j : PyJson)
    (hfree : ∀ c ∈ inner, c ≠ btick)
    (hs : svc (extraction_prompt text_chunk) = .ok resp)
    (hc : resp.choices.head? = some choice)
    (hm : choice.message.content =
      some (String.mk (fenceJson ++ inner ++ fenceTicks)))
    (hp : parse (String.mk inner) = some j) :
    extract_entities_from_chunk svc parse text_chunk =
      applyFieldDefaults j := by
  unfold extract_entities_from_chunk
  simp only [hs, hc, hm, preprocessReply_json_fenced inner hfree, hp]

/-! ## Concrete scenarios: counterexamples and witnesses -/

/-- Deterministic extractor stub: one `Concept` entity named `A` for every
chunk text except `"skipme"`, which yields no entities. -/
def demoExtract : String → EntityExtractionResult := fun t =>
  if t = "skipme" then emptyResult
  else
    { entities := [{ type := "Concept", name := "A", description := some "d" }]
      relationships := []
      chunk_summary := "s" }

/-- The store after ingesting the one-chunk corpus `["t"]` once. -/
def storeAfterFirstPass : Store :=
  { g := { nodes :=
             [⟨0, "Document", [("chunk_id", "chunk_0"), ("summary", "s")]⟩,
              ⟨1, "Concept", [("name", "A"), ("description", "d")]⟩]
           edges := [⟨0, "HAS_CONCEPT", 1⟩]
           nextId := 2 }
    ops := 3 }

/-- The store after ingesting the same one-chunk corpus a second time:
a second Document node with the same `chunk_id` and a second link edge. -/
def storeAfterSecondPass : Store :=
  { g := { nodes :=
             [⟨0, "Document", [("chunk_id", "chunk_0"), ("summary", "s")]⟩,
              ⟨1, "Concept", [("name", "A"), ("description", "d")]⟩,
              ⟨2, "Document", [("chunk_id", "chunk_0"), ("summary", "s")]⟩]
           edges := [⟨0, "HAS_CONCEPT", 1⟩, ⟨2, "HAS_CONCEPT", 1⟩]
           nextId := 3 }
    ops := 6 }

/-- Claim **C1 (counterexample).** Ingesting the same chunk twice with identical
extraction output does **not** leave node and edge counts unchanged: the
Document node is written with `CREATE`, so the second pass adds a second
Document node keyed by the same `chunk_id` (2 → 3 nodes) and a second
chunk-to-entity link edge from it (1 → 2 edges).  Only the entity node
keyed by (Concept, A) stays unique. -/
theorem reingestion_inflates_node_and_edge_counts :
    ingest_documents_semantically demoExtract [] ["t"] emptyStore =
      .ok storeAfterFirstPass ∧
    ingest_documents_semantically demoExtract [] ["t"] storeAfterFirstPass =
      .ok storeAfterSecondPass ∧
    storeAfterFirstPass.g.nodes.length = 2 ∧
    storeAfterSecondPass.g.nodes.length = 3 ∧
    storeAfterFirstPass.g.edges.length = 1 ∧
    storeAfterSecondPass.g.edges.length = 2 :=
  ⟨by rfl, by rfl, rfl, rfl, rfl, rfl⟩

theorem ingestion_preserves_entity_key_uniqueness_witness :
    graphInv storeAfterSecondPass.g :=
  ingestion_preserves_entity_key_uniqueness demoExtract [] ["t"]
    storeAfterFirstPass storeAfterSecondPass
    (ingestion_preserves_entity_key_uniqueness demoExtract [] ["t"]
      emptyStore storeAfterFirstPass ⟨List.Pairwise.nil, List.nodup_nil⟩
      (by rfl))
    (by rfl)

/-- Claim **C3 (counterexample).** With the store raising on the very first write
(`failSet = [0]`, hit while processing chunk 0 — chunk 1's writes would be
ops 3–5 and are not in the set), the whole ingestion run returns the raised
store error: nothing is accumulated or reported per chunk, and chunk 1 is
never processed. -/
theorem write_failure_raises_immediately :
    ingest_documents_semantically demoExtract [0] ["a", "b"] emptyStore =
      .error "graph store write failed" := by rfl

theorem write_failure_aborts_remaining_chunks_witness :
    ingestLoop demoExtract [0] 0 (["skipme"] ++ "a" :: ["b"]) emptyStore =
      .error "graph store write failed" :=
  write_failure_aborts_remaining_chunks demoExtract [0] ["skipme"] "a" ["b"]
    0 emptyStore emptyStore "graph store write failed" (by rfl) (by rfl)
    (by rfl)

theorem chunk_cap_bounds_ingestion_witness :
    ingest_documents_semantically demoExtract []
        (List.replicate 20 "c" ++ ["x"]) emptyStore =
      ingest_documents_semantically demoExtract []
        (List.replicate 20 "c") emptyStore :=
  chunk_cap_bounds_ingestion demoExtract [] (List.replicate 20 "c") ["x"]
    emptyStore (by decide)

theorem empty_extraction_skips_chunk_witness :
    ingestLoop demoExtract [] 0 ("skipme" :: ["a"]) emptyStore =
      ingestLoop demoExtract [] 1 ["a"] emptyStore :=
  empty_extraction_skips_chunk demoExtract [] 0 "skipme" ["a"] emptyStore
    (by rfl)

/-- A completion service that always raises. -/
def svcErrDemo : String → Except String Completion := fun _ => .error "boom"

/-- A `json.loads` stand-in that fails on every input. -/
def parseNoneDemo : String → Option PyJson := fun _ => none

theorem extraction_failure_degrades_to_empty_result_witness :
    extract_entities_from_chunk svcErrDemo parseNoneDemo "chunk" =
      emptyResult :=
  extraction_failure_degrades_to_empty_result svcErrDemo parseNoneDemo
    "chunk" (Or.inl ⟨"boom", rfl⟩)

def relDemoC10 : RelDict := { from_ := "A", to_ := "B", type := "AFFECTS" }

/-- A parsed reply missing `entities` and `chunk_summary`. -/
def jsonDemoC10 : PyJson :=
  { entities := none, relationships := some [relDemoC10], chunk_summary := none }

def svcDemoC10 : String → Except String Completion :=
  fun _ => .ok { choices := [{ message := { content := some "reply" } }] }

def parseDemoC10 : String → Option PyJson := fun _ => some jsonDemoC10

theorem missing_reply_fields_default_individually_witness :
    extract_entities_from_chunk svcDemoC10 parseDemoC10 "chunk" =
      { entities := [], relationships := [relDemoC10], chunk_summary := "" } :=
  missing_reply_fields_default_individually svcDemoC10 parseDemoC10 "chunk"
    { choices := [{ message := { content := some "reply" } }] }
    { message := { content := some "reply" } } "reply" jsonDemoC10
    rfl rfl rfl rfl

def retrieveDemoC4 : String → List String := fun _ => ["frag"]

def svcErrDemoC4 : String → Except String Completion :=
  fun _ => .error "rate limited"

theorem synthesis_failure_propagates_to_caller_witness :
    query_with_chain_of_thought retrieveDemoC4 svcErrDemoC4 "q" =
      .error "rate limited" :=
  synthesis_failure_propagates_to_caller retrieveDemoC4 svcErrDemoC4 "q"
    "rate limited" rfl

/-- A small valid-JSON payload (an object with only a `chunk_summary`). -/
def innerJsonDemo : String := "\x7b\"chunk_summary\": \"S\"\x7d"

def parsedDemoC6 : PyJson :=
  { entities := none, relationships := none, chunk_summary := some "S" }

/-- A `json.loads` model restricted to the two inputs that matter here: it succeeds
exactly on the bare payload (valid JSON) and fails on anything else — in
particular on fenced text, which starts with a backtick and is not JSON. -/
def jsonLoadsDemo : String → Option PyJson :=
  fun s => if s = innerJsonDemo then some parsedDemoC6 else none

/-- A completion service replying with the payload wrapped in a *plain*
markdown fence (no `json` tag). -/
def plainFencedSvc : String → Except String Completion :=
  fun _ => .ok { choices :=
    [{ message := { content := some ("```" ++ innerJsonDemo ++ "```") } }] }

/-- Claim **C6 (counterexample).** A reply wrapped in a plain ```` ``` ````
Markdown code fence whose inner content is valid JSON is *not* stripped
(the code only strips fences opened with `'```json'`): parsing the still-
fenced text fails and the result degrades to the empty fallback, not the
parsed non-empty result the claim promises. -/
theorem plain_fence_reply_not_stripped :
    extract_entities_from_chunk plainFencedSvc jsonLoadsDemo "chunk" =
      emptyResult ∧
    jsonLoadsDemo innerJsonDemo = some parsedDemoC6 ∧
    applyFieldDefaults parsedDemoC6 ≠ emptyResult :=
  ⟨by rfl, by rfl, by decide⟩

def innerCharsDemo : List Char := innerJsonDemo.toList

/-- The same payload wrapped in a `'```json'`-opened fence. -/
def jsonFencedReply : String :=
  String.mk (fenceJson ++ innerCharsDemo ++ fenceTicks)

def jsonFencedSvc : String → Except String Completion :=
  fun _ => .ok { choices := [{ message := { content := some jsonFencedReply } }] }

theorem json_fenced_reply_parsed_after_fence_strip_witness :
    extract_entities_from_chunk jsonFencedSvc jsonLoadsDemo "chunk" =
      applyFieldDefaults parsedDemoC6 :=
  json_fenced_reply_parsed_after_fence_strip jsonFencedSvc jsonLoadsDemo
    "chunk"
    { choices := [{ message := { content := some jsonFencedReply } }] }
    { message := { content := some jsonFencedReply } }
    innerCharsDemo parsedDemoC6 (by decide) rfl rfl rfl (by rfl)

/-- A graph holding two nodes of different labels sharing the name `X`. -/
def gDemoC9 : Graph :=
  { nodes := [⟨0, "Concept", [("name", "X"), ("description", "")]⟩,
              ⟨1, "Parameter", [("name", "X"), ("description", "")]⟩]
    edges := []
    nextId := 2 }

theorem unmatched_relationship_dropped_and_multimatch_fans_out_witness :
    runRelQuery "nope" "X" "AFFECTS" gDemoC9 = gDemoC9 ∧
    (⟨0, "AFFECTS", 1⟩ : Edge) ∈ (runRelQuery "X" "X" "AFFECTS" gDemoC9).edges :=
  ⟨(unmatched_relationship_dropped_and_multimatch_fans_out gDemoC9 "nope" "X"
      "AFFECTS").1 (Or.inl (by decide)),
   (unmatched_relationship_dropped_and_multimatch_fans_out gDemoC9 "X" "X"
      "AFFECTS").2
     ⟨0, "Concept", [("name", "X"), ("description", "")]⟩ (by decide)
     ⟨1, "Parameter", [("name", "X"), ("description", "")]⟩ (by decide)
     (by rfl) (by rfl)⟩

end SemanticGraphRAG
